import Mathlib

/-!
Verification of the atomic-chess rule engine in `src/chess-game.js`
(class `ChessGame`).

The JavaScript code is shallowly embedded as follows.

* Pieces keep the numeric encoding of the source (`EMPTY = 0`, `BR = 1`,
  `BH = 2`, `BB = 3`, `BQ = 4`, `BK = 5`, `BP = 6`, `WR = 10`, `WH = 20`,
  `WB = 30`, `WQ = 40`, `WK = 50`, `WP = 60`).
* The board is a total function `Int → Int → Nat`; the engine only ever
  reads or writes squares after the same bounds checks the source performs,
  so values outside rows/columns 0..7 are never observed.
* JavaScript numbers that can be `NaN` (the results of `charCodeAt` on an
  empty string and of `parseInt` on a missing or non-digit character) are
  modelled as `Option Int`, `none` standing for `NaN`.  Every comparison
  with `NaN` is false in JavaScript; the embedding spells the resulting
  control flow out branch by branch, with comments tracing the source.
* A thrown `TypeError` (indexing `undefined`, which happens exactly when
  the source evaluates `this.board[NaN][j]` for an in-range or `NaN`
  column `j`) is modelled by `Except.error ()`.
* Moving-square strings are modelled as `List Char`; `s.charCodeAt(0)`
  becomes the code of the head character and `parseInt(s[1])` the digit
  value of the second character (both `none`/`NaN` when absent).
-/

namespace AtomicChess

inductive Player where
  | WHITE
  | BLACK
deriving DecidableEq

inductive GState where
  | UNFINISHED
  | WHITE_WON
  | BLACK_WON
deriving DecidableEq

/-- The 8×8 grid of `this.board`, with the numeric piece encoding of the
source.  Squares outside 0..7 are never read or written by the engine. -/
abbrev Board := Int → Int → Nat

/-- The result object `{success, message}` returned by `makeMove`. -/
structure MoveResult where
  success : Bool
  message : String
deriving DecidableEq

/-- The mutable state of a `ChessGame` instance: `this.board`,
`this.currentPlayer`, `this.gameState`. -/
structure GameST where
  board : Board
  currentPlayer : Player
  gameState : GState

/-- The starting arrangement built by `initializeGame`. -/
def initialBoard : Board := fun r c =>
  if r = 0 then
    if c = 0 ∨ c = 7 then 1
    else if c = 1 ∨ c = 6 then 2
    else if c = 2 ∨ c = 5 then 3
    else if c = 3 then 4
    else if c = 4 then 5
    else 0
  else if r = 1 then 6
  else if r = 6 then 60
  else if r = 7 then
    if c = 0 ∨ c = 7 then 10
    else if c = 1 ∨ c = 6 then 20
    else if c = 2 ∨ c = 5 then 30
    else if c = 3 then 40
    else if c = 4 then 50
    else 0
  else 0

/-- The state produced by `initializeGame`. -/
def initGame : GameST := ⟨initialBoard, Player.WHITE, GState.UNFINISHED⟩

/-- `getPieceAt(row, col)` with numeric coordinates: `null` (here `none`)
when out of bounds, the board entry otherwise. -/
def getPieceAt (b : Board) (row col : Int) : Option Nat :=
  if row < 0 ∨ 8 ≤ row ∨ col < 0 ∨ 8 ≤ col then none
  else some (b row col)

/-- `setPieceAt(row, col, piece)`: writes only when in bounds, silently
ignores out-of-range coordinates. -/
def setPieceAt (b : Board) (row col : Int) (piece : Nat) : Board :=
  if 0 ≤ row ∧ row < 8 ∧ 0 ≤ col ∧ col < 8 then
    fun r c => if r = row ∧ c = col then piece else b r c
  else b

/-- `isValidPlayer(piece)` on an actual numeric piece value.  (`null` and
`undefined` arguments, which also fail every comparison in the source, are
handled at the call site in `makeMove`.) -/
def isValidPlayer (cp : Player) (piece : Nat) : Bool :=
  if piece = 0 then false
  else if cp = Player.WHITE then decide (10 ≤ piece)
  else decide (piece < 10 ∧ 0 < piece)

/-- `checkHorizontalVerticalMove`: scans the strictly-between squares of a
horizontal or vertical line; the `for` loop from `min+1` (inclusive) to
`max` (exclusive) is rendered with `List.range`. -/
def checkHorizontalVerticalMove (b : Board) (currentCol currentRow destCol destRow : Int) : Bool :=
  if currentRow = destRow then
    let start := min currentCol destCol + 1
    let stop := max currentCol destCol
    (List.range (stop - start).toNat).all fun i =>
      decide (b currentRow (start + (i : Int)) = 0)
  else if currentCol = destCol then
    let start := min currentRow destRow + 1
    let stop := max currentRow destRow
    (List.range (stop - start).toNat).all fun i =>
      decide (b (start + (i : Int)) currentCol = 0)
  else true

/-- `checkDiagonalMove`: the `while` loop steps one diagonal square at a
time and stops as soon as either coordinate reaches its destination; for
the calls the source makes (|Δrow| = |Δcol| = n ≥ 1, guaranteed by the
bishop/queen guards together with the friendly-capture rejection) it
inspects exactly the n − 1 strictly intermediate squares, which is the
iteration count used here. -/
def checkDiagonalMove (b : Board) (currentCol currentRow destCol destRow : Int) : Bool :=
  let rowStep : Int := if currentRow < destRow then 1 else -1
  let colStep : Int := if currentCol < destCol then 1 else -1
  let steps := min ((destRow - currentRow) * rowStep) ((destCol - currentCol) * colStep) - 1
  (List.range steps.toNat).all fun i =>
    decide (b (currentRow + rowStep * ((i : Int) + 1)) (currentCol + colStep * ((i : Int) + 1)) = 0)

/-- The body of `isValidChessMove` once the destination coordinates are
known to be actual numbers (the source then reads
`destPiece = this.board[destRow][destCol]` after its bounds check, which
is performed by the wrapper `isValidChessMove` below). -/
def isValidChessMoveNum (b : Board) (movingPiece : Nat) (currentCol currentRow destCol destRow : Int) : Bool :=
  let rowDistance := |currentRow - destRow|
  let colDistance := |currentCol - destCol|
  let destPiece := b destRow destCol
  -- cannot capture own piece
  if movingPiece < 10 ∧ 0 < destPiece ∧ destPiece < 10 then false
  else if 10 ≤ movingPiece ∧ 10 ≤ destPiece then false
  else
    match movingPiece with
    -- rook: horizontal or vertical only
    | 1 | 10 =>
      if currentRow ≠ destRow ∧ currentCol ≠ destCol then false
      else checkHorizontalVerticalMove b currentCol currentRow destCol destRow
    -- knight: L-shape moves
    | 2 | 20 =>
      decide ((rowDistance = 1 ∧ colDistance = 2) ∨ (rowDistance = 2 ∧ colDistance = 1))
    -- bishop: diagonal only
    | 3 | 30 =>
      if rowDistance ≠ colDistance then false
      else checkDiagonalMove b currentCol currentRow destCol destRow
    -- queen: any direction
    | 4 | 40 =>
      if rowDistance = colDistance then
        checkDiagonalMove b currentCol currentRow destCol destRow
      else if currentRow = destRow ∨ currentCol = destCol then
        checkHorizontalVerticalMove b currentCol currentRow destCol destRow
      else false
    -- king: one square in any direction, never onto an occupied square
    | 5 | 50 =>
      if 1 < rowDistance ∨ 1 < colDistance then false
      else if destPiece ≠ 0 then false
      else true
    -- black pawn
    | 6 =>
      if currentRow ≤ destRow then false
      else if destPiece = 0 ∧ currentCol ≠ destCol then false
      else if destPiece ≠ 0 ∧ currentCol = destCol then false
      else if currentRow = 1 then decide (rowDistance ≤ 2 ∧ currentCol = destCol)
      else decide (rowDistance = 1)
    -- white pawn
    | 60 =>
      if destRow ≤ currentRow then false
      else if destPiece = 0 ∧ currentCol ≠ destCol then false
      else if destPiece ≠ 0 ∧ currentCol = destCol then false
      else if currentRow = 6 then decide (rowDistance ≤ 2 ∧ currentCol = destCol)
      else decide (rowDistance = 1)
    | _ => false

/-- One bound test of the form `x < 0 || x >= 8`; `NaN` (`none`) fails
both comparisons in JavaScript, hence `false`. -/
def outOfRange : Option Int → Bool
  | none => false
  | some x => decide (x < 0 ∨ 8 ≤ x)

/-- `isValidChessMove(movingPiece, currentCol, currentRow, destCol, destRow)`
with possibly-`NaN` destination coordinates.  The source first rejects
out-of-board destinations (a test every `NaN` passes), then reads
`destPiece = this.board[destRow][destCol]`:

* `destRow = NaN` makes `this.board[NaN]` evaluate to `undefined`, and
  indexing `undefined` throws — modelled by `Except.error ()`;
* `destRow` a number with `destCol = NaN` makes `destPiece = undefined`;
  tracing each `switch` case with an `undefined` `destPiece` and `NaN`
  `colDistance` gives the small table below (this combination cannot
  actually arise from `makeMove`, whose parsing produces a `NaN` column
  only for an empty string, which also has a `NaN` row). -/
def isValidChessMove (b : Board) (movingPiece : Nat) (currentCol currentRow : Int)
    (destColO destRowO : Option Int) : Except Unit Bool :=
  if outOfRange destColO || outOfRange destRowO then .ok false
  else
    match destRowO with
    | none => .error ()
    | some destRow =>
      match destColO with
      | some destCol => .ok (isValidChessMoveNum b movingPiece currentCol currentRow destCol destRow)
      | none =>
        -- destPiece = undefined: both friendly-capture tests are false;
        -- rook/queen fall through their loops (zero iterations on NaN
        -- bounds) when the row matches, the other kinds reject.
        .ok (match movingPiece with
          | 1 | 10 => decide (currentRow = destRow)
          | 4 | 40 => decide (currentRow = destRow)
          | 6 =>
            if currentRow ≤ destRow then false
            else if currentRow = 1 then false
            else decide (|currentRow - destRow| = 1)
          | 60 =>
            if destRow ≤ currentRow then false
            else if currentRow = 6 then false
            else decide (|currentRow - destRow| = 1)
          | _ => false)

/-- The nine offsets visited by the nested `dr`/`dc` explosion loops in
`makeMove`, in source order. -/
def explodeOffsets : List (Int × Int) :=
  [(-1, -1), (-1, 0), (-1, 1), (0, -1), (0, 0), (0, 1), (1, -1), (1, 0), (1, 1)]

/-- One iteration of the explosion loop: read the neighbour through
`getPieceAt` and clear it when it is neither `null` (off-board) nor a
pawn, mirroring `explodePiece !== null && explodePiece !== this.BP &&
explodePiece !== this.WP`. -/
def explodeStep (destRow destCol : Int) (b : Board) (d : Int × Int) : Board :=
  let explodePiece := getPieceAt b (destRow + d.1) (destCol + d.2)
  if explodePiece ≠ none ∧ explodePiece ≠ some 6 ∧ explodePiece ≠ some 60 then
    setPieceAt b (destRow + d.1) (destCol + d.2) 0
  else b

/-- The whole explosion loop of `makeMove`. -/
def explosion (b : Board) (destRow destCol : Int) : Board :=
  explodeOffsets.foldl (explodeStep destRow destCol) b

/-- The king-presence scan of `checkGameEnd` for a given piece code. -/
def kingExists (b : Board) (k : Nat) : Bool :=
  (List.range 8).any fun row =>
    (List.range 8).any fun col => decide (b (row : Int) (col : Int) = k)

/-- `checkGameEnd`: scans for both kings and updates the game state. -/
def checkGameEnd (b : Board) (gs : GState) : GState :=
  if ¬ kingExists b 5 then GState.WHITE_WON
  else if ¬ kingExists b 50 then GState.BLACK_WON
  else gs

/-- `switchPlayer`. -/
def switchPlayer : Player → Player
  | Player.WHITE => Player.BLACK
  | Player.BLACK => Player.WHITE

/-- `s.charCodeAt(0)`: `NaN` on the empty string, the code of the first
character otherwise. -/
def charCodeAt0 : List Char → Option Int
  | [] => none
  | ch :: _ => some (ch.toNat : Int)

/-- `parseInt(s[1])`: `s[1]` is a single character (or `undefined` when
the string is shorter than two characters); `parseInt` of a single
character is its digit value for an ASCII digit and `NaN` otherwise. -/
def parseIntAt1 : List Char → Option Int
  | _ :: ch :: _ => if ch.isDigit then some ((ch.toNat : Int) - 48) else none
  | _ => none

/-- `makeMove(currentSquare, destSquare)`.

The coordinate conversions can produce `NaN` (`none`); the nested matches
below trace what the source then does:

* origin row `NaN`, origin column `NaN` (empty origin string): the bounds
  test of `getPieceAt` is entirely false, so `this.board[NaN][NaN]`
  evaluates `this.board[NaN]` to `undefined` and indexing it throws;
* origin row `NaN`, origin column a number: an out-of-range column makes
  `getPieceAt` return `null` (→ "not your piece" failure); an in-range
  column reaches `this.board[NaN][col]`, which throws;
* origin row a number, origin column `NaN`: `getPieceAt` returns `null`
  for an out-of-range row and `this.board[row][NaN] = undefined`
  otherwise; both fail `isValidPlayer`, giving the "not your piece"
  failure;
* both numbers: exactly the source path.

Symmetrically for the destination inside `isValidChessMove`; a
destination column that is `NaN` while the row is a number cannot arise
(only the empty string has a `NaN` first character, and then the rank is
`NaN` as well), and that arm is marked unreachable. -/
def makeMove (st : GameST) (currentSquare destSquare : List Char) : Except Unit (MoveResult × GameST) :=
  let currentColO := (charCodeAt0 currentSquare).map fun x => x - 97
  let currentRowO := (parseIntAt1 currentSquare).map fun x => 8 - x
  let destColO := (charCodeAt0 destSquare).map fun x => x - 97
  let destRowO := (parseIntAt1 destSquare).map fun x => 8 - x
  match currentRowO, currentColO with
  | none, none => .error ()
  | none, some c =>
    if c < 0 ∨ 8 ≤ c then .ok (⟨false, "Please select one of your own pieces."⟩, st)
    else .error ()
  | some _, none => .ok (⟨false, "Please select one of your own pieces."⟩, st)
  | some r, some c =>
    if r < 0 ∨ 8 ≤ r ∨ c < 0 ∨ 8 ≤ c then
      .ok (⟨false, "Please select one of your own pieces."⟩, st)
    else
      let piece := st.board r c
      if ¬ isValidPlayer st.currentPlayer piece then
        .ok (⟨false, "Please select one of your own pieces."⟩, st)
      else
        match destRowO, destColO with
        | none, none => .error ()
        | none, some dc =>
          -- isValidChessMove: the bounds test catches a numeric
          -- out-of-range column; otherwise board[NaN][dc] throws
          if dc < 0 ∨ 8 ≤ dc then .ok (⟨false, "Invalid move according to chess rules."⟩, st)
          else .error ()
        | some _, none => .error () -- unreachable: an empty destination string has a NaN rank too
        | some dr, some dc =>
          match isValidChessMove st.board piece c r (some dc) (some dr) with
          | .error _ => .error ()
          | .ok valid =>
            if ¬ valid then .ok (⟨false, "Invalid move according to chess rules."⟩, st)
            else if st.gameState ≠ GState.UNFINISHED then
              .ok (⟨false, "Game is already finished."⟩, st)
            else
              -- Make the move
              let b1 := setPieceAt st.board r c 0
              let captured := getPieceAt b1 dr dc
              let b2 :=
                if captured ≠ some 0 then
                  -- Atomic explosion: clear the destination, then the ring
                  explosion (setPieceAt b1 dr dc 0) dr dc
                else
                  -- Normal move (no capture)
                  setPieceAt b1 dr dc piece
              let gs2 := checkGameEnd b2 st.gameState
              .ok (⟨true, "Move completed successfully."⟩, ⟨b2, switchPlayer st.currentPlayer, gs2⟩)

/-! ### Concrete positions used by the theorems below -/

/-- A board holding only a White pawn on e2 (row 6, column 4). -/
def bWPOnly : Board := fun r c => if r = 6 ∧ c = 4 then 60 else 0

/-- A board holding only a Black pawn on a7 (row 1, column 0). -/
def bBPOnly : Board := fun r c => if r = 1 ∧ c = 0 then 6 else 0

/-- A Black pawn on row 2 column 0 and a White rook on row 1 column 7. -/
def b4wide : Board := fun r c =>
  if r = 2 ∧ c = 0 then 6 else if r = 1 ∧ c = 7 then 10 else 0

/-- A board holding only a White king on row 3, column 3. -/
def bKOnly : Board := fun r c => if r = 3 ∧ c = 3 then 50 else 0

/-- The initial position with the game already won by White. -/
def stFin : GameST := ⟨initialBoard, Player.WHITE, GState.WHITE_WON⟩

/-- White rook (3,0), Black knight (3,4), Black king (2,3), White king
(2,5): the rook capture a5×e5 explodes both kings at once. -/
def stX : GameST :=
  ⟨(fun r c =>
      if r = 3 ∧ c = 0 then 10
      else if r = 3 ∧ c = 4 then 2
      else if r = 2 ∧ c = 3 then 5
      else if r = 2 ∧ c = 5 then 50
      else 0),
   Player.WHITE, GState.UNFINISHED⟩

/-- The state after the double-king explosion of `stX`, a5×e5. -/
def stXPost : GameST :=
  ⟨explosion (setPieceAt (setPieceAt stX.board 3 0 0) 3 4 0) 3 4,
   Player.BLACK, GState.WHITE_WON⟩

/-- The state after the opening knight move b1→c3 from `initGame`. -/
def stKnightPost : GameST :=
  ⟨setPieceAt (setPieceAt initialBoard 7 1 0) 5 2 20,
   Player.BLACK, GState.UNFINISHED⟩

/-! ### Helper lemmas -/

theorem getPieceAt_inRange (b : Board) (r c : Int)
    (h1 : 0 ≤ r) (h2 : r < 8) (h3 : 0 ≤ c) (h4 : c < 8) :
    getPieceAt b r c = some (b r c) := by
  unfold getPieceAt
  rw [if_neg (by omega)]

theorem setPieceAt_apply (b : Board) (row col : Int) (p : Nat) (r c : Int) :
    setPieceAt b row col p r c =
      if (0 ≤ row ∧ row < 8 ∧ 0 ≤ col ∧ col < 8) ∧ r = row ∧ c = col then p
      else b r c := by
  unfold setPieceAt
  by_cases hb : 0 ≤ row ∧ row < 8 ∧ 0 ≤ col ∧ col < 8
  · rw [if_pos hb]
    by_cases he : r = row ∧ c = col
    · simp [he, hb]
    · simp [he, hb]
  · simp [hb]

theorem isValidChessMove_some_true (b : Board) (p : Nat) (cc cr dc dr : Int)
    (h : isValidChessMove b p cc cr (some dc) (some dr) = .ok true) :
    (0 ≤ dr ∧ dr < 8 ∧ 0 ≤ dc ∧ dc < 8) ∧
      isValidChessMoveNum b p cc cr dc dr = true := by
  unfold isValidChessMove at h
  by_cases hb : outOfRange (some dc) || outOfRange (some dr)
  · rw [if_pos hb] at h
    exact absurd h (by simp)
  · rw [if_neg hb] at h
    simp only [Except.ok.injEq] at h
    refine ⟨?_, h⟩
    simp only [outOfRange, Bool.or_eq_true, decide_eq_true_eq, not_or] at hb
    omega

/-! ### Claim theorems -/

/-- Claim C1: the spec says an accepted White pawn move has negative
`destRow − currentRow` and an accepted Black pawn move a positive one.
The code does the exact opposite: a White pawn forward move (e2→e3 on the
initial board) is rejected, a White pawn moving toward row 7 is accepted,
a Black pawn forward move (a7→a6) is rejected, and a Black pawn moving
toward row 0 is accepted.  This contradicts the code comment
`can not move backwards or sideways` and makes every pawn immobile in the
opening position, so the claim is right and the code wrong. -/
theorem C1_pawn_direction_reversed :
    isValidChessMove initialBoard 60 4 6 (some 4) (some 5) = .ok false ∧
    isValidChessMove bWPOnly 60 4 6 (some 4) (some 7) = .ok true ∧
    isValidChessMove initialBoard 6 0 1 (some 0) (some 2) = .ok false ∧
    isValidChessMove bBPOnly 6 0 1 (some 0) (some 0) = .ok true :=
  ⟨rfl, rfl, rfl, rfl⟩

/-- Claim C3: a pawn two-square advance from its starting rank with the
intermediate and destination squares both Empty should be accepted.  On
the initial board e2→e4 has rows 5 and 4 of column 4 Empty, yet the move
is rejected (the reversed direction test fires first, and the code has no
intermediate-square check at all), so the claim is right and the code
wrong. -/
theorem C3_double_advance_rejected :
    initGame.board 5 4 = 0 ∧ initGame.board 4 4 = 0 ∧
    makeMove initGame ['e', '2'] ['e', '4'] =
      .ok (⟨false, "Invalid move according to chess rules."⟩, initGame) :=
  ⟨rfl, rfl, rfl⟩

/-- Claim C4: a pawn move that changes column should require a column
delta of exactly ±1.  The code never tests the column distance of a pawn
capture: a Black pawn on (row 2, column 0) capturing the White rook on
(row 1, column 7) — a column delta of 7 — is accepted, so the claim is
right and the code wrong. -/
theorem C4_pawn_wide_capture_accepted :
    b4wide 1 7 = 10 ∧
    isValidChessMove b4wide 6 0 2 (some 7) (some 1) = .ok true :=
  ⟨rfl, rfl⟩

/-- Claim C8: the entry point should return a failure result for every
pair of strings and never throw.  In the source, a malformed square whose
rank character is missing reaches `this.board[NaN]` (an `undefined`
value) and indexing it throws a `TypeError`: `makeMove("a2", "a")` and
`makeMove("", "e4")` both crash, modelled by `Except.error`. -/
theorem C8_malformed_input_throws :
    makeMove initGame ['a', '2'] ['a'] = .error () ∧
    makeMove initGame ([] : List Char) ['e', '4'] = .error () :=
  ⟨rfl, rfl⟩

/-- Claim C9: a king move is accepted only onto an on-board Empty square
within one row and one column of its origin; in particular every king
move onto an occupied square, of either owner, is rejected (the
contrapositive of `b dr dc = 0`). -/
theorem C9_king_only_empty (b : Board) (p : Nat) (cc cr dc dr : Int)
    (hk : p = 5 ∨ p = 50)
    (hv : isValidChessMove b p cc cr (some dc) (some dr) = .ok true) :
    (0 ≤ dr ∧ dr < 8 ∧ 0 ≤ dc ∧ dc < 8) ∧ b dr dc = 0 ∧
      |cr - dr| ≤ 1 ∧ |cc - dc| ≤ 1 := by
  obtain ⟨hrange, hnum⟩ := isValidChessMove_some_true b p cc cr dc dr hv
  refine ⟨hrange, ?_⟩
  rcases hk with h | h <;>
    subst h <;>
    simp only [isValidChessMoveNum] at hnum <;>
    split_ifs at hnum with h1 h2 h3 h4 <;>
    first
      | exact Bool.noConfusion hnum
      | (push_neg at h3 h4
         exact ⟨h4, h3.1, h3.2⟩)

/-- Witness for C9: a lone White king on (3,3) moving to the Empty square
(3,4). -/
theorem C9_king_only_empty_witness :
    ((0 : Int) ≤ 3 ∧ (3 : Int) < 8 ∧ (0 : Int) ≤ 4 ∧ (4 : Int) < 8) ∧
      bKOnly 3 4 = 0 ∧ |(3 : Int) - 3| ≤ 1 ∧ |(3 : Int) - 4| ≤ 1 :=
  C9_king_only_empty bKOnly 50 3 3 4 3 (Or.inr rfl) rfl

/-- Claim C5: a move request that returns `success = false` leaves every
board square, the game state and the active player exactly as they were.
All three failure returns in `makeMove` happen before any mutation. -/
theorem C5_rejected_no_effect (st : GameST) (cur dst : List Char)
    (res : MoveResult) (st2 : GameST)
    (hmk : makeMove st cur dst = .ok (res, st2))
    (hfail : res.success = false) :
    (∀ r c : Int, st2.board r c = st.board r c) ∧
      st2.currentPlayer = st.currentPlayer ∧ st2.gameState = st.gameState := by
  simp only [makeMove] at hmk
  repeat' split at hmk
  all_goals first
    | exact Except.noConfusion hmk
    | (simp only [Except.ok.injEq, Prod.mk.injEq] at hmk
       obtain ⟨hres, hstEq⟩ := hmk
       subst hstEq
       subst hres
       try simp at hfail
       try exact ⟨fun _ _ => rfl, rfl, rfl⟩)

/-- Witness for C5: the rejected request e2→e3 on the initial position. -/
theorem C5_rejected_no_effect_witness :
    initGame.board 0 0 = initGame.board 0 0 ∧
      initGame.currentPlayer = initGame.currentPlayer ∧
      initGame.gameState = initGame.gameState := by
  have h := C5_rejected_no_effect initGame ['e', '2'] ['e', '3']
    ⟨false, "Invalid move according to chess rules."⟩ initGame rfl rfl
  exact ⟨h.1 0 0, h.2.1, h.2.2⟩

/-- Counterexample to claim C6: with the game already won, a request
naming an Empty origin square fails with the "not your piece" message,
not the game-already-finished condition — the source checks
`this.gameState` only after the ownership and chess-rule checks. -/
theorem C6_wrong_error_kind :
    stFin.gameState ≠ GState.UNFINISHED ∧
    makeMove stFin ['e', '5'] ['e', '6'] =
      .ok (⟨false, "Please select one of your own pieces."⟩, stFin) ∧
    "Please select one of your own pieces." ≠ "Game is already finished." :=
  ⟨by decide, rfl, by decide⟩

/-- Claim C6 as amended: once the game state has left `UNFINISHED`, every
move request that returns a result fails and leaves the whole state
unchanged (the game-already-finished message is only reported when the
ownership and chess-rule checks pass first). -/
theorem C6_finished_never_succeeds (st : GameST) (cur dst : List Char)
    (res : MoveResult) (st2 : GameST)
    (hgs : st.gameState ≠ GState.UNFINISHED)
    (hmk : makeMove st cur dst = .ok (res, st2)) :
    res.success = false ∧
      (∀ r c : Int, st2.board r c = st.board r c) ∧
      st2.currentPlayer = st.currentPlayer ∧ st2.gameState = st.gameState := by
  simp only [makeMove] at hmk
  repeat' split at hmk
  all_goals first
    | exact Except.noConfusion hmk
    | contradiction
    | (simp only [Except.ok.injEq, Prod.mk.injEq] at hmk
       obtain ⟨hres, hstEq⟩ := hmk
       subst hstEq
       subst hres
       exact ⟨rfl, fun _ _ => rfl, rfl, rfl⟩)

/-- Witness for C6: after White has won, the (otherwise illegal) request
e2→e3 is still rejected and changes nothing. -/
theorem C6_finished_never_succeeds_witness :
    (⟨false, "Invalid move according to chess rules."⟩ : MoveResult).success = false ∧
      stFin.board 0 0 = stFin.board 0 0 ∧
      stFin.currentPlayer = stFin.currentPlayer ∧
      stFin.gameState = stFin.gameState := by
  have h := C6_finished_never_succeeds stFin ['e', '2'] ['e', '3']
    ⟨false, "Invalid move according to chess rules."⟩ stFin (by decide) rfl
  exact ⟨h.1, h.2.1 0 0, h.2.2.1, h.2.2.2⟩

/-- Counterexample to claim C7: in `stX` the rook capture a5×e5 destroys
both kings, the game state becomes `WHITE_WON`, and yet the active player
still flips from White to Black — `switchPlayer()` is called
unconditionally after `checkGameEnd()`. -/
theorem C7_player_flips_even_after_win :
    stX.currentPlayer = Player.WHITE ∧
    ((makeMove stX ['a', '5'] ['e', '5']).toOption.map fun p =>
        (p.1.success, p.2.gameState, p.2.currentPlayer)) =
      some (true, GState.WHITE_WON, Player.BLACK) :=
  ⟨rfl, rfl⟩

/-- Claim C7 as amended: after every successfully applied move the active
player is flipped, whether or not the game state is still `UNFINISHED`
afterwards (so in particular it is flipped while the game remains in
progress, as the claim's first half states). -/
theorem C7_success_flips_player (st : GameST) (cur dst : List Char)
    (res : MoveResult) (st2 : GameST)
    (hmk : makeMove st cur dst = .ok (res, st2))
    (hsucc : res.success = true) :
    st2.currentPlayer = switchPlayer st.currentPlayer := by
  simp only [makeMove] at hmk
  repeat' split at hmk
  all_goals first
    | exact Except.noConfusion hmk
    | (simp only [Except.ok.injEq, Prod.mk.injEq] at hmk
       obtain ⟨hres, hstEq⟩ := hmk
       subst hstEq
       subst hres
       try simp at hsucc
       try rfl)

/-- Witness for C7: the successful opening knight move b1→c3. -/
theorem C7_success_flips_player_witness :
    stKnightPost.currentPlayer = switchPlayer initGame.currentPlayer :=
  C7_success_flips_player initGame ['b', '1'] ['c', '3']
    ⟨true, "Move completed successfully."⟩ stKnightPost rfl rfl

/-- Claim C10: after an accepted move whose resulting board holds neither
king, the game state is `WHITE_WON` — `checkGameEnd` tests the Black
king's absence first, so no draw or undefined terminal state arises. -/
theorem C10_no_kings_white_wins (st : GameST) (cur dst : List Char)
    (res : MoveResult) (st2 : GameST)
    (hmk : makeMove st cur dst = .ok (res, st2))
    (hsucc : res.success = true)
    (hbk : kingExists st2.board 5 = false)
    (hwk : kingExists st2.board 50 = false) :
    st2.gameState = GState.WHITE_WON := by
  simp only [makeMove] at hmk
  repeat' split at hmk
  all_goals first
    | exact Except.noConfusion hmk
    | (simp only [Except.ok.injEq, Prod.mk.injEq] at hmk
       obtain ⟨hres, hstEq⟩ := hmk
       subst hstEq
       subst hres
       try simp at hsucc
       try (simp only [] at hbk
            simp only [checkGameEnd]
            rw [hbk]
            simp))

/-! ### Pointwise behaviour of the explosion loop -/

theorem explodeStep_miss (R C : Int) (b : Board) (d : Int × Int) (r c : Int)
    (hne : ¬(R + d.1 = r ∧ C + d.2 = c)) :
    explodeStep R C b d r c = b r c := by
  simp only [explodeStep]
  split_ifs with h
  · have hn : ¬((0 ≤ R + d.1 ∧ R + d.1 < 8 ∧ 0 ≤ C + d.2 ∧ C + d.2 < 8) ∧
        r = R + d.1 ∧ c = C + d.2) := fun hh => hne ⟨hh.2.1.symm, hh.2.2.symm⟩
    rw [setPieceAt_apply, if_neg hn]
  · rfl

theorem explodeStep_keep_pawn (R C : Int) (b : Board) (d : Int × Int) (r c : Int)
    (hp : b r c = 6 ∨ b r c = 60) :
    explodeStep R C b d r c = b r c := by
  by_cases hne : R + d.1 = r ∧ C + d.2 = c
  · obtain ⟨h1, h2⟩ := hne
    subst h1
    subst h2
    simp only [explodeStep]
    split_ifs with h
    · exfalso
      rcases h with ⟨hn, h6, h60⟩
      unfold getPieceAt at hn h6 h60
      split_ifs at hn h6 h60 with hP
      · exact hn rfl
      · rcases hp with hx | hx
        · exact h6 (by rw [hx])
        · exact h60 (by rw [hx])
    · rfl
  · exact explodeStep_miss R C b d r c hne

theorem explodeStep_clear_target (R C : Int) (b : Board) (d : Int × Int) (r c : Int)
    (hdr : R + d.1 = r) (hdc : C + d.2 = c)
    (hr : 0 ≤ r) (hr8 : r < 8) (hc : 0 ≤ c) (hc8 : c < 8)
    (h6 : b r c ≠ 6) (h60 : b r c ≠ 60) :
    explodeStep R C b d r c = 0 := by
  subst hdr
  subst hdc
  simp only [explodeStep]
  rw [getPieceAt_inRange b _ _ hr hr8 hc hc8]
  have hcnd : (some (b (R + d.1) (C + d.2)) : Option Nat) ≠ none ∧
      (some (b (R + d.1) (C + d.2)) : Option Nat) ≠ some 6 ∧
      (some (b (R + d.1) (C + d.2)) : Option Nat) ≠ some 60 :=
    ⟨Option.some_ne_none _, fun hh => h6 (Option.some.inj hh),
      fun hh => h60 (Option.some.inj hh)⟩
  rw [if_pos hcnd, setPieceAt_apply]
  have hset : (0 ≤ R + d.1 ∧ R + d.1 < 8 ∧ 0 ≤ C + d.2 ∧ C + d.2 < 8) ∧
      R + d.1 = R + d.1 ∧ C + d.2 = C + d.2 := ⟨⟨hr, hr8, hc, hc8⟩, rfl, rfl⟩
  rw [if_pos hset]

theorem explodeStep_evolve (R C : Int) (b : Board) (d : Int × Int) (r c : Int) :
    explodeStep R C b d r c = b r c ∨ explodeStep R C b d r c = 0 := by
  simp only [explodeStep]
  split_ifs with h
  · rw [setPieceAt_apply]
    split_ifs with h2
    · exact Or.inr rfl
    · exact Or.inl rfl
  · exact Or.inl rfl

theorem explodeStep_keep_zero (R C : Int) (b : Board) (d : Int × Int) (r c : Int)
    (h0 : b r c = 0) : explodeStep R C b d r c = 0 := by
  rcases explodeStep_evolve R C b d r c with h | h
  · rw [h, h0]
  · exact h

theorem foldl_explodeStep_zero (R C r c : Int) :
    ∀ (l : List (Int × Int)) (b : Board), b r c = 0 →
      (l.foldl (explodeStep R C) b) r c = 0 := by
  intro l
  induction l with
  | nil => intro b hb; simpa using hb
  | cons e t ih =>
    intro b hb
    rw [List.foldl_cons]
    exact ih _ (explodeStep_keep_zero R C b e r c hb)

theorem foldl_explodeStep_pawn (R C r c : Int) :
    ∀ (l : List (Int × Int)) (b : Board), (b r c = 6 ∨ b r c = 60) →
      (l.foldl (explodeStep R C) b) r c = b r c := by
  intro l
  induction l with
  | nil => intro b _; rfl
  | cons e t ih =>
    intro b hb
    have hstep := explodeStep_keep_pawn R C b e r c hb
    rw [List.foldl_cons]
    exact (ih _ (by rw [hstep]; exact hb)).trans hstep

theorem foldl_explodeStep_evolve (R C r c : Int) :
    ∀ (l : List (Int × Int)) (b : Board),
      (l.foldl (explodeStep R C) b) r c = b r c ∨
        (l.foldl (explodeStep R C) b) r c = 0 := by
  intro l
  induction l with
  | nil => intro b; exact Or.inl rfl
  | cons e t ih =>
    intro b
    rw [List.foldl_cons]
    rcases explodeStep_evolve R C b e r c with h | h
    · rcases ih (explodeStep R C b e) with h2 | h2
      · exact Or.inl (h2.trans h)
      · exact Or.inr h2
    · exact Or.inr (foldl_explodeStep_zero R C r c t _ h)

theorem foldl_explodeStep_clears (R C r c : Int)
    (hr : 0 ≤ r) (hr8 : r < 8) (hc : 0 ≤ c) (hc8 : c < 8) :
    ∀ (l : List (Int × Int)) (b : Board) (d : Int × Int),
      d ∈ l → R + d.1 = r → C + d.2 = c →
      b r c ≠ 6 → b r c ≠ 60 → (l.foldl (explodeStep R C) b) r c = 0 := by
  intro l
  induction l with
  | nil => intro b d hd _ _ _ _; exact absurd hd (List.not_mem_nil d)
  | cons e t ih =>
    intro b d hd hdr hdc h6 h60
    rw [List.foldl_cons]
    by_cases hcond : R + e.1 = r ∧ C + e.2 = c
    · exact foldl_explodeStep_zero R C r c t _
        (explodeStep_clear_target R C b e r c hcond.1 hcond.2 hr hr8 hc hc8 h6 h60)
    · have hstep := explodeStep_miss R C b e r c hcond
      rcases List.mem_cons.mp hd with he | ht
      · subst he
        exact absurd ⟨hdr, hdc⟩ hcond
      · exact ih _ d ht hdr hdc (by rw [hstep]; exact h6) (by rw [hstep]; exact h60)

theorem mem_explodeOffsets (x y : Int) (hx : |x| ≤ 1) (hy : |y| ≤ 1) :
    (x, y) ∈ explodeOffsets := by
  have hx2 := abs_le.mp hx
  have hy2 := abs_le.mp hy
  have hx3 : x = -1 ∨ x = 0 ∨ x = 1 := by omega
  have hy3 : y = -1 ∨ y = 0 ∨ y = 1 := by omega
  rcases hx3 with h | h | h <;> rcases hy3 with h2 | h2 | h2 <;>
    subst h <;> subst h2 <;> decide

theorem explosion_zero (b : Board) (R C r c : Int) (h : b r c = 0) :
    explosion b R C r c = 0 :=
  foldl_explodeStep_zero R C r c explodeOffsets b h

theorem explosion_pawn (b : Board) (R C r c : Int)
    (h : b r c = 6 ∨ b r c = 60) : explosion b R C r c = b r c :=
  foldl_explodeStep_pawn R C r c explodeOffsets b h

theorem explosion_same_or_zero (b : Board) (R C r c : Int) :
    explosion b R C r c = b r c ∨ explosion b R C r c = 0 :=
  foldl_explodeStep_evolve R C r c explodeOffsets b

theorem explosion_ring_clear (b : Board) (R C r c : Int)
    (h1 : |r - R| ≤ 1) (h2 : |c - C| ≤ 1)
    (hr : 0 ≤ r) (hr8 : r < 8) (hc : 0 ≤ c) (hc8 : c < 8)
    (h6 : b r c ≠ 6) (h60 : b r c ≠ 60) :
    explosion b R C r c = 0 :=
  foldl_explodeStep_clears R C r c hr hr8 hc hc8 explodeOffsets b (r - R, c - C)
    (mem_explodeOffsets _ _ h1 h2) (by omega) (by omega) h6 h60

/-- A piece belonging to the active player can never legally move onto
its own square: the friendly-capture tests reject it. -/
theorem isValidChessMoveNum_not_self (cp : Player) (b : Board) (p : Nat) (cc cr : Int)
    (hpl : isValidPlayer cp p = true) (hbd : b cr cc = p) :
    isValidChessMoveNum b p cc cr cc cr = false := by
  unfold isValidPlayer at hpl
  split_ifs at hpl with h0 hw
  · have hp10 : 10 ≤ p := of_decide_eq_true hpl
    simp only [isValidChessMoveNum]
    rw [hbd]
    have h1 : ¬(p < 10 ∧ 0 < p ∧ p < 10) := by omega
    have h2 : 10 ≤ p ∧ 10 ≤ p := ⟨hp10, hp10⟩
    rw [if_neg h1, if_pos h2]
  · have hp : p < 10 ∧ 0 < p := of_decide_eq_true hpl
    simp only [isValidChessMoveNum]
    rw [hbd]
    have h1 : p < 10 ∧ 0 < p ∧ p < 10 := ⟨hp.1, hp.2, hp.1⟩
    rw [if_pos h1]

/-- Black pawn e4 captures the White bishop on d5; a Black pawn on c6 and
a White knight on c6-adjacent square c6/c6 sit in the blast ring, and the
kings stand far away on e8 and e1. -/
def stC2 : GameST :=
  ⟨(fun r c =>
      if r = 4 ∧ c = 4 then 6
      else if r = 3 ∧ c = 3 then 30
      else if r = 2 ∧ c = 3 then 6
      else if r = 2 ∧ c = 2 then 20
      else if r = 0 ∧ c = 4 then 5
      else if r = 7 ∧ c = 4 then 50
      else 0),
   Player.BLACK, GState.UNFINISHED⟩

/-- The state after the capture e4×d5 from `stC2`. -/
def stC2Post : GameST :=
  ⟨explosion (setPieceAt (setPieceAt stC2.board 4 4 0) 3 3 0) 3 3,
   Player.WHITE, GState.UNFINISHED⟩

/-- Counterexample to claim C2 as stated: in `stC2` the capture e4×d5 is
accepted and the destination (3,3) was occupied, the origin square (4,4)
lies in the 8-square neighborhood of the destination and held a Pawn
immediately before the move, yet afterwards it is Empty (the capturing
pawn left it and was consumed by its own explosion) — so not every
neighborhood square that held a Pawn still holds it. -/
theorem C2_origin_pawn_not_preserved :
    stC2.board 3 3 ≠ 0 ∧
    stC2.board 4 4 = 6 ∧
    (|(4 : Int) - 3| ≤ 1 ∧ |(4 : Int) - 3| ≤ 1) ∧
    ((makeMove stC2 ['e', '4'] ['d', '5']).toOption.map fun p =>
        (p.1.success, p.2.board 4 4)) = some (true, 0) :=
  ⟨by decide, rfl, by decide, rfl⟩

/-- Claim C2 as amended: for every accepted capture, afterwards the
destination square is Empty, the origin square is Empty (the capturing
piece occupies no square: no square ever gains a piece, as the last
conjunct states), every on-board neighborhood square other than the
origin that held a non-Pawn piece is Empty, and every neighborhood square
other than the origin that held a Pawn still holds that Pawn. -/
theorem C2_capture_explosion (st : GameST) (cur dst : List Char) (cr cc dr dc : Int)
    (hcr : (parseIntAt1 cur).map (fun x => 8 - x) = some cr)
    (hcc : (charCodeAt0 cur).map (fun x => x - 97) = some cc)
    (hdr : (parseIntAt1 dst).map (fun x => 8 - x) = some dr)
    (hdc : (charCodeAt0 dst).map (fun x => x - 97) = some dc)
    (res : MoveResult) (st2 : GameST)
    (hmk : makeMove st cur dst = .ok (res, st2))
    (hsucc : res.success = true)
    (hcap : st.board dr dc ≠ 0) :
    st2.board dr dc = 0 ∧
    st2.board cr cc = 0 ∧
    (∀ r c : Int, |r - dr| ≤ 1 → |c - dc| ≤ 1 →
      ¬(r = dr ∧ c = dc) → ¬(r = cr ∧ c = cc) →
      ((st.board r c = 6 ∨ st.board r c = 60) → st2.board r c = st.board r c) ∧
      (st.board r c ≠ 6 → st.board r c ≠ 60 → 0 ≤ r → r < 8 → 0 ≤ c → c < 8 →
        st2.board r c = 0)) ∧
    (∀ r c : Int, st2.board r c = st.board r c ∨ st2.board r c = 0) := by
  simp only [makeMove, hcr, hcc, hdr, hdc] at hmk
  split_ifs at hmk with hbo hpv hgs hcapb
  · -- origin coordinates out of range: "not your piece" failure
    simp only [Except.ok.injEq, Prod.mk.injEq] at hmk
    rw [← hmk.1] at hsucc
    exact Bool.noConfusion hsucc
  · -- game already finished: both validator outcomes return a failure
    split at hmk
    · exact Except.noConfusion hmk
    · split_ifs at hmk with hnv
      · simp only [Except.ok.injEq, Prod.mk.injEq] at hmk
        rw [← hmk.1] at hsucc
        exact Bool.noConfusion hsucc
      · simp only [Except.ok.injEq, Prod.mk.injEq] at hmk
        rw [← hmk.1] at hsucc
        exact Bool.noConfusion hsucc
  · -- the capture branch
    split at hmk
    · exact Except.noConfusion hmk
    · rename_i valid heq
      split_ifs at hmk with hnv
      · -- the move was applied: valid = true, capture resolved by explosion
        subst hnv
        obtain ⟨hrange, hnum⟩ := isValidChessMove_some_true _ _ _ _ _ _ heq
        have hplayer : isValidPlayer st.currentPlayer (st.board cr cc) = true := hpv
        have hne : ¬(dr = cr ∧ dc = cc) := by
          rintro ⟨h1, h2⟩
          subst h1
          subst h2
          rw [isValidChessMoveNum_not_self st.currentPlayer st.board
            (st.board dr dc) dc dr hplayer rfl] at hnum
          exact Bool.noConfusion hnum
        have horig : setPieceAt st.board cr cc 0 cr cc = 0 := by
          have hcnd : (0 ≤ cr ∧ cr < 8 ∧ 0 ≤ cc ∧ cc < 8) ∧ cr = cr ∧ cc = cc :=
            ⟨⟨by omega, by omega, by omega, by omega⟩, rfl, rfl⟩
          rw [setPieceAt_apply, if_pos hcnd]
        have hb1 : ∀ r c : Int, ¬(r = cr ∧ c = cc) →
            setPieceAt st.board cr cc 0 r c = st.board r c := by
          intro r c h
          have hcnd : ¬((0 ≤ cr ∧ cr < 8 ∧ 0 ≤ cc ∧ cc < 8) ∧ r = cr ∧ c = cc) :=
            fun hh => h ⟨hh.2.1, hh.2.2⟩
          rw [setPieceAt_apply, if_neg hcnd]
        simp only [Except.ok.injEq, Prod.mk.injEq] at hmk
        obtain ⟨hres, hstEq⟩ := hmk
        subst hstEq
        have hb1d : setPieceAt (setPieceAt st.board cr cc 0) dr dc 0 dr dc = 0 := by
          have hcnd : (0 ≤ dr ∧ dr < 8 ∧ 0 ≤ dc ∧ dc < 8) ∧ dr = dr ∧ dc = dc :=
            ⟨⟨by omega, by omega, by omega, by omega⟩, rfl, rfl⟩
          rw [setPieceAt_apply, if_pos hcnd]
        have hb1o : setPieceAt (setPieceAt st.board cr cc 0) dr dc 0 cr cc = 0 := by
          have hcnd : ¬((0 ≤ dr ∧ dr < 8 ∧ 0 ≤ dc ∧ dc < 8) ∧ cr = dr ∧ cc = dc) :=
            fun hh => hne ⟨hh.2.1.symm, hh.2.2.symm⟩
          rw [setPieceAt_apply, if_neg hcnd]
          exact horig
        have hb1other : ∀ r c : Int, ¬(r = dr ∧ c = dc) → ¬(r = cr ∧ c = cc) →
            setPieceAt (setPieceAt st.board cr cc 0) dr dc 0 r c = st.board r c := by
          intro r c h1 h2
          have hcnd : ¬((0 ≤ dr ∧ dr < 8 ∧ 0 ≤ dc ∧ dc < 8) ∧ r = dr ∧ c = dc) :=
            fun hh => h1 ⟨hh.2.1, hh.2.2⟩
          rw [setPieceAt_apply, if_neg hcnd, hb1 r c h2]
        have hso : ∀ r c : Int,
            setPieceAt (setPieceAt st.board cr cc 0) dr dc 0 r c = st.board r c ∨
              setPieceAt (setPieceAt st.board cr cc 0) dr dc 0 r c = 0 := by
          intro r c
          rw [setPieceAt_apply]
          split_ifs with h1
          · exact Or.inr rfl
          · rw [setPieceAt_apply]
            split_ifs with h2
            · exact Or.inr rfl
            · exact Or.inl rfl
        refine ⟨?_, ?_, ?_, ?_⟩
        · exact explosion_zero _ dr dc _ _ hb1d
        · exact explosion_zero _ dr dc _ _ hb1o
        · intro r c habsr habsc hnd hno
          constructor
          · intro hp
            have hkeep : setPieceAt (setPieceAt st.board cr cc 0) dr dc 0 r c =
                st.board r c := hb1other r c hnd hno
            exact (explosion_pawn _ dr dc _ _ (by rw [hkeep]; exact hp)).trans hkeep
          · intro h6 h60 hr0 hr8 hc0 hc8
            exact explosion_ring_clear _ dr dc _ _ habsr habsc hr0 hr8 hc0 hc8
              (by rw [hb1other r c hnd hno]; exact h6)
              (by rw [hb1other r c hnd hno]; exact h60)
        · intro r c
          rcases explosion_same_or_zero
              (setPieceAt (setPieceAt st.board cr cc 0) dr dc 0) dr dc r c with h | h
          · rcases hso r c with h2 | h2
            · exact Or.inl (h.trans h2)
            · exact Or.inr (h.trans h2)
          · exact Or.inr h
      · -- invalid move failure
        simp only [Except.ok.injEq, Prod.mk.injEq] at hmk
        rw [← hmk.1] at hsucc
        exact Bool.noConfusion hsucc
  · -- the no-capture branch: contradicts the capture hypothesis
    split at hmk
    · exact Except.noConfusion hmk
    · rename_i valid heq
      split_ifs at hmk with hnv
      · exfalso
        subst hnv
        obtain ⟨hrange, hnum⟩ := isValidChessMove_some_true _ _ _ _ _ _ heq
        have hplayer : isValidPlayer st.currentPlayer (st.board cr cc) = true := hpv
        have hne : ¬(dr = cr ∧ dc = cc) := by
          rintro ⟨h1, h2⟩
          subst h1
          subst h2
          rw [isValidChessMoveNum_not_self st.currentPlayer st.board
            (st.board dr dc) dc dr hplayer rfl] at hnum
          exact Bool.noConfusion hnum
        have hb1 : ∀ r c : Int, ¬(r = cr ∧ c = cc) →
            setPieceAt st.board cr cc 0 r c = st.board r c := by
          intro r c h
          have hcnd : ¬((0 ≤ cr ∧ cr < 8 ∧ 0 ≤ cc ∧ cc < 8) ∧ r = cr ∧ c = cc) :=
            fun hh => h ⟨hh.2.1, hh.2.2⟩
          rw [setPieceAt_apply, if_neg hcnd]
        have hC : getPieceAt (setPieceAt st.board cr cc 0) dr dc = some 0 :=
          not_not.mp hcapb
        rw [getPieceAt_inRange _ _ _ (by omega) (by omega) (by omega) (by omega),
          hb1 dr dc hne] at hC
        exact hcap (Option.some.inj hC)
      · simp only [Except.ok.injEq, Prod.mk.injEq] at hmk
        rw [← hmk.1] at hsucc
        exact Bool.noConfusion hsucc
  · -- origin piece not owned by the active player
    simp only [Except.ok.injEq, Prod.mk.injEq] at hmk
    rw [← hmk.1] at hsucc
    exact Bool.noConfusion hsucc

/-- Witness for the amended C2: the capture e4×d5 from `stC2` — the
destination and origin are cleared, the Black pawn on (2,3) survives, the
White knight on (2,2) is destroyed. -/
theorem C2_capture_explosion_witness :
    stC2Post.board 3 3 = 0 ∧ stC2Post.board 4 4 = 0 ∧
      stC2Post.board 2 3 = stC2.board 2 3 ∧ stC2Post.board 2 2 = 0 := by
  have h := C2_capture_explosion stC2 ['e', '4'] ['d', '5'] 4 4 3 3
    rfl rfl rfl rfl ⟨true, "Move completed successfully."⟩ stC2Post rfl rfl (by decide)
  refine ⟨h.1, h.2.1, ?_, ?_⟩
  · exact (h.2.2.1 2 3 (by decide) (by decide) (by decide) (by decide)).1 (Or.inl rfl)
  · exact (h.2.2.1 2 2 (by decide) (by decide) (by decide) (by decide)).2
      (by decide) (by decide) (by decide) (by decide) (by decide) (by decide)

/-- Witness for C10: the double-king explosion a5×e5 from `stX`. -/
theorem C10_no_kings_white_wins_witness :
    stXPost.gameState = GState.WHITE_WON :=
  C10_no_kings_white_wins stX ['a', '5'] ['e', '5']
    ⟨true, "Move completed successfully."⟩ stXPost rfl rfl rfl rfl

end AtomicChess
